import Mathlib

/-!
The transport synchronisation engine of `src/jack_link.cpp`: a shallow
embedding of the class `jack_link` and the properties proved of it.

* Every C++ `double` and `float` is an exact rational (`ℚ`) and the
  arithmetic on them is exact. A theorem that is meant of the rounded
  arithmetic of the source, and not only of exact arithmetic, states the
  bounds within which the double operations it goes through are exact.
  A result that is NaN or an infinity in the source is `none` where the
  source can produce it from finite fields (`position_beat`).
* The engine state is the record `jack_link` of the member variables; each
  member function becomes a function from the state before (and its external
  inputs) to the state after and the list of calls it makes on the two
  collaborators (the Link session and the JACK client), in the order it
  makes them.
* What the collaborators hand back is an explicit argument: the answer of
  `jack_transport_query`, the reading of the Link clock (`host_time`), and
  whether `m_mutex.try_lock()` succeeds (`try_lock`).
* A Link session snapshot (capture, mutate, commit) is the list of the
  mutations applied to it between capture and commit.
* `int32_t(x)` truncates towards zero; a value stored in a 32-bit field, and
  the result of arithmetic on `int32_t` operands, is reduced into the signed
  32-bit range (`wrap32`); the theorems that depend on such a value state the
  range in which it is exact.
* The frame time of the timebase hook for a position with `frame_rate = 0` is
  not a number in the source and 0 here: such positions are outside the model
  of the hook. JACK reports the sample rate of the server as `frame_rate`,
  which is positive.
* The real-time thread runs the timebase hook without holding the lock: the
  hook reads `m_tempo_req` once before it tries the lock and once after, and
  the two reads are separate inputs of `timebase_callback`.
* Logging, the worker thread loop and the condition variable wait are not
  modelled; `notify_one` is recorded as a call.
-/

/-! ## Numeric primitives -/

/-- The function `std::llround`: nearest integer, halfway cases away from zero. -/
def llround (x : ℚ) : Int :=
  if 0 ≤ x then ⌊x + 1 / 2⌋ else -⌊-x + 1 / 2⌋

/-- Truncation towards zero, the value of a floating to integral conversion. -/
def trunc (x : ℚ) : Int :=
  if 0 ≤ x then ⌊x⌋ else ⌈x⌉

/-- Reduction of an integer into the signed 32-bit range. -/
def wrap32 (n : Int) : Int :=
  (n + 2 ^ 31) % 2 ^ 32 - 2 ^ 31

/-- The conversion `int32_t(x)` of a double. -/
def int32_t (x : ℚ) : Int :=
  wrap32 (trunc x)

/-- The function `std::fmod`: `x - n * y` with `n` the quotient `x / y`
truncated towards zero. -/
def fmod (x y : ℚ) : ℚ :=
  x - trunc (x / y) * y

/-! ## Data model -/

/-- The transport states of the JACK API that the source tests. -/
inductive jack_transport_state_t where
  | JackTransportStopped
  | JackTransportRolling
  | JackTransportLooping
  | JackTransportStarting
  | JackTransportNetStarting
  deriving DecidableEq

/-- The fields of the JACK `jack_position_t` that the source reads or writes.
`valid` is the bit `pos->valid & JackPositionBBT`; `frame` and `frame_rate`
are unsigned 32-bit in JACK; `bar`, `beat`, `tick` are `int32_t`;
`beats_per_bar` and `beat_type` are `float`; `ticks_per_beat` and
`beats_per_minute` are `double`. -/
structure jack_position_t where
  frame : Nat
  frame_rate : Nat
  valid : Bool
  bar : Int
  beat : Int
  tick : Int
  beats_per_bar : ℚ
  beat_type : ℚ
  ticks_per_beat : ℚ
  beats_per_minute : ℚ
  deriving DecidableEq

/-- A mutation of a captured Link session snapshot. The beat handed to
`forceBeatAtTime` is `none` when it is not a finite number. -/
inductive SessionOp where
  | setTempo (tempo : ℚ) (host_time : Int)
  | setIsPlaying (playing : Bool) (host_time : Int)
  | forceBeatAtTime (beat : Option ℚ) (host_time : Int) (quantum : ℚ)
  deriving DecidableEq

/-- A call on a collaborator. A commit carries the mutations applied to the
snapshot it commits. -/
inductive Effect where
  | commitAppSessionState (session_state : List SessionOp)
  | commitAudioSessionState (session_state : List SessionOp)
  | jack_release_timebase
  | jack_set_timebase_callback
  | jack_transport_start
  | jack_transport_stop
  | notify_one
  deriving DecidableEq

/-- The member variables of `jack_link` (the reconciliation state).
`m_client` is `m_client != nullptr`; `m_timebase` counts the hook calls with
`new_pos` set since the timebase was last installed and is only compared
with 0. -/
structure jack_link where
  m_client : Bool
  m_srate : ℚ
  m_timebase : Int
  m_npeers : Nat
  m_tempo : ℚ
  m_tempo_req : ℚ
  m_quantum : ℚ
  m_playing : Bool
  m_playing_req : Bool
  m_running : Bool
  deriving DecidableEq

namespace jack_link

open jack_transport_state_t SessionOp Effect

/-- The state the constructor leaves (source lines 32-36), with the outcome of
`jack_client_open` and the sample rate the server reports as arguments. -/
def ctor (client : Bool) (srate : ℚ) : jack_link :=
  { m_client := client
    m_srate := if client then srate else 44100
    m_timebase := 0
    m_npeers := 0
    m_tempo := 120
    m_tempo_req := 0
    m_quantum := 4
    m_playing := false
    m_playing_req := false
    m_running := false }

/-- The method `jack_link::position_beat` (source lines 317-327). The
subtraction `pos->beat - 1` is on `int32_t`. A division by zero
(`ticks_per_beat = 0` at line 320, `frame_rate = 0` at line 324) makes the
result NaN or an infinity: `none`. -/
def position_beat (s : jack_link) (pos : jack_position_t) : Option ℚ :=
  if pos.valid then
    if pos.ticks_per_beat = 0 then none
    else
      let beats : ℚ := (wrap32 (pos.beat - 1) : ℚ) + (pos.tick : ℚ) / pos.ticks_per_beat
      some (beats - pos.beats_per_bar)
  else
    if pos.frame_rate = 0 then none
    else
      let quantum : ℚ := max s.m_quantum 1
      let beats : ℚ := s.m_tempo * pos.frame / (60 * pos.frame_rate)
      some (fmod beats quantum - quantum)

/-- The method `jack_link::timebase_reset` (source lines 281-291): without a
client nothing happens; otherwise a held timebase is released and its counter
zeroed, and the timebase callback is installed. -/
def timebase_reset (s : jack_link) : jack_link × List Effect :=
  ({ s with
      m_timebase := if s.m_client = true ∧ 0 < s.m_timebase then 0 else s.m_timebase },
    if s.m_client = false then []
    else (if 0 < s.m_timebase then [jack_release_timebase] else [])
      ++ [jack_set_timebase_callback])

/-- The method `jack_link::transport_reset` (source lines 293-315); it changes
no member variable. `query` is the answer of `jack_transport_query`. -/
def transport_reset (s : jack_link) (query : jack_transport_state_t × jack_position_t)
    (host_time : Int) : List Effect :=
  if s.m_client = false then []
  else
    (if s.m_playing_req = true ∧ s.m_playing = true ∧ 0 < s.m_npeers then
      if query.1 = JackTransportStopped then
        [commitAppSessionState [forceBeatAtTime (position_beat s query.2) host_time s.m_quantum]]
      else []
    else [])
    ++ [if s.m_playing then jack_transport_start else jack_transport_stop]

/-- The setter `jack_link::tempo(double)` (source lines 65-77). -/
def tempo (s : jack_link) (tempo : ℚ) (host_time : Int) : jack_link × List Effect :=
  if 0 < s.m_npeers then
    (s, [commitAppSessionState [setTempo tempo host_time]])
  else
    let r := timebase_reset { s with m_tempo_req := tempo }
    (r.1, r.2 ++ [notify_one])

/-- The setter `jack_link::playing(bool)` (source lines 81-94). -/
def playing (s : jack_link) (playing : Bool)
    (query : jack_transport_state_t × jack_position_t) (host_time : Int) :
    jack_link × List Effect :=
  if 0 < s.m_npeers then
    (s, [commitAppSessionState [setIsPlaying playing host_time]])
  else
    let s1 := { s with m_playing_req := true, m_playing := playing }
    (s1, transport_reset s1 query host_time ++ [notify_one])

/-- The method `jack_link::sync_callback` (source lines 109-121); it changes no
member variable and returns 1. -/
def sync_callback (s : jack_link) (state : jack_transport_state_t) (pos : jack_position_t)
    (host_time : Int) : Int × List Effect :=
  if state = JackTransportStarting ∧ s.m_playing = true ∧ s.m_playing_req = false then
    (1, [commitAudioSessionState [forceBeatAtTime (position_beat s pos) host_time s.m_quantum]])
  else (1, [])

/-- The value `frame_time.count()` of source lines 139-140, in microseconds. -/
def frame_time (pos : jack_position_t) : Int :=
  llround (1000000 * pos.frame / pos.frame_rate)

/-- The method `jack_link::timebase_callback` (source lines 130-164): the state
after and the position it leaves in `*pos`. Each member variable is given its
value after the guarded assignments of lines 133-137 and 162-163.

Line 133 tests `m_tempo_req > 0.0` before the lock is tried and line 134
reads `m_tempo_req` again once `try_lock` has succeeded. `tested_req` is the
value the test reads; `s` is the state when `try_lock` returns, and
`s.m_tempo_req` the value line 134 copies. In a call that no other thread
interrupts `tested_req = s.m_tempo_req`; they differ when another thread
stores a request (under the lock) between the test and the `try_lock`.

The arithmetic of lines 139-156 is exact here and rounded to double in the
source. -/
def timebase_callback (s : jack_link) (pos : jack_position_t) (new_pos : Int)
    (try_lock : Bool) (tested_req : ℚ) : jack_link × jack_position_t :=
  let locked : Prop := 0 < tested_req ∧ try_lock = true
  let s1 : jack_link :=
    { s with
      m_tempo := if locked then s.m_tempo_req else s.m_tempo
      m_tempo_req := if locked then 0 else s.m_tempo_req }
  let beats_per_minute : ℚ := s1.m_tempo
  let beats_per_bar : ℚ := max s1.m_quantum 1
  let beats : ℚ := beats_per_minute * frame_time pos / 60000000
  let bar : ℚ := ⌊beats / beats_per_bar⌋
  let beat : ℚ := beats - bar * beats_per_bar
  let valid : Bool := pos.valid
  let ticks_per_beat : ℚ := if valid then pos.ticks_per_beat else 960
  let beat_type : ℚ := if valid then pos.beat_type else 4
  let pos1 : jack_position_t :=
    { pos with
      valid := true
      bar := wrap32 (int32_t bar + 1)
      beat := wrap32 (int32_t beat + 1)
      tick := int32_t (ticks_per_beat * (beat - ⌊beat⌋))
      beats_per_bar := beats_per_bar
      ticks_per_beat := ticks_per_beat
      beats_per_minute := beats_per_minute
      beat_type := beat_type }
  ({ s1 with m_timebase := if new_pos ≠ 0 then s1.m_timebase + 1 else s1.m_timebase }, pos1)

/-- The method `jack_link::peers_callback` (source lines 181-187). -/
def peers_callback (s : jack_link) (npeers : Nat) : jack_link × List Effect :=
  let r := timebase_reset { s with m_npeers := npeers }
  (r.1, r.2 ++ [notify_one])

/-- The method `jack_link::tempo_callback` (source lines 189-195). -/
def tempo_callback (s : jack_link) (tempo : ℚ) : jack_link × List Effect :=
  let r := timebase_reset { s with m_tempo_req := tempo }
  (r.1, r.2 ++ [notify_one])

/-- The method `jack_link::playing_callback` (source lines 197-210). -/
def playing_callback (s : jack_link) (playing : Bool) (try_lock : Bool)
    (query : jack_transport_state_t × jack_position_t) (host_time : Int) :
    jack_link × List Effect :=
  if s.m_playing_req = true ∧ try_lock = true then
    ({ s with m_playing_req := false }, [])
  else
    let s1 := { s with m_playing_req := true, m_playing := playing }
    (s1, transport_reset s1 query host_time ++ [notify_one])

/-- The test `state == JackTransportRolling || state == JackTransportLooping`
of source lines 357-358. -/
def transport_rolling (state : jack_transport_state_t) : Bool :=
  state == JackTransportRolling || state == JackTransportLooping

/-- The method `jack_link::worker_run` (source lines 345-409), one
reconciliation pass. `query` is the answer of `jack_transport_query`. The
states `s1` to `s4` are the member variables after lines 360-367, 383-386,
387-394 and 395-405; each guarded assignment is the conditional value of its
variable. -/
def worker_run (s : jack_link) (query : jack_transport_state_t × jack_position_t)
    (host_time : Int) : jack_link × List Effect :=
  if s.m_client = true ∧ 0 < s.m_npeers then
    let pos := query.2
    let playing : Bool := transport_rolling query.1
    -- lines 360-367
    let differs : Bool := (playing && !s.m_playing) || (!playing && s.m_playing)
    let playing_req : Bool := differs && !s.m_playing_req
    let s1 : jack_link :=
      { s with
        m_playing_req := if differs && s.m_playing_req then false else s.m_playing_req }
    -- lines 369-378
    let tempo_differs : Bool :=
      pos.valid && decide (|s1.m_tempo - pos.beats_per_minute| > 1 / 100)
    let quantum_differs : Bool :=
      pos.valid && decide (|s1.m_quantum - pos.beats_per_bar| > 1 / 100)
    let beats_per_minute : ℚ := if tempo_differs then pos.beats_per_minute else 0
    let beats_per_bar : ℚ := if quantum_differs then pos.beats_per_bar else 0
    let request : Int :=
      (if playing_req then 1 else 0) + (if tempo_differs then 1 else 0)
        + (if quantum_differs then 1 else 0)
    -- lines 380-407
    if 0 < request then
      let s2 : jack_link :=
        { s1 with m_tempo := if 0 < beats_per_minute then beats_per_minute else s1.m_tempo }
      let ops2 : List SessionOp :=
        if 0 < beats_per_minute then [setTempo s2.m_tempo host_time] else []
      let s3 : jack_link :=
        { s2 with m_quantum := if 0 < beats_per_bar then beats_per_bar else s2.m_quantum }
      let ops3 : List SessionOp :=
        if 0 < beats_per_bar ∧ s3.m_playing = true ∧ playing_req = false then
          [forceBeatAtTime (position_beat s3 pos) host_time s3.m_quantum]
        else []
      let s4 : jack_link :=
        { s3 with
          m_playing_req := if playing_req then true else s3.m_playing_req
          m_playing := if playing_req then playing else s3.m_playing }
      let ops4 : List SessionOp :=
        if playing_req then
          (if s4.m_playing then [forceBeatAtTime (position_beat s4 pos) host_time s4.m_quantum]
            else [])
          ++ [setIsPlaying s4.m_playing host_time]
        else []
      (s4, [commitAppSessionState (ops2 ++ ops3 ++ ops4)])
    else (s1, [])
  else (s, [])

/-! ## The engine as a transition system -/

/-- One operation of the engine together with its external inputs: the two
setters, the three Link callbacks, the timebase hook, the sync hook and one
pass of the worker. The state an operation starts from is the state when it
takes the lock (for the hook: when it tries the lock), so an operation of
another thread that ran between the unlocked test of the hook and its
`try_lock` comes before the hook in a sequence, and `tested_req` carries what
the test had read. -/
inductive Op where
  | tempo (tempo : ℚ) (host_time : Int)
  | playing (playing : Bool) (query : jack_transport_state_t × jack_position_t)
      (host_time : Int)
  | peers_callback (npeers : Nat)
  | tempo_callback (tempo : ℚ)
  | playing_callback (playing : Bool) (try_lock : Bool)
      (query : jack_transport_state_t × jack_position_t) (host_time : Int)
  | timebase_callback (pos : jack_position_t) (new_pos : Int) (try_lock : Bool)
      (tested_req : ℚ)
  | sync_callback (state : jack_transport_state_t) (pos : jack_position_t) (host_time : Int)
  | worker_run (query : jack_transport_state_t × jack_position_t) (host_time : Int)

/-- The state after one operation. -/
def step (s : jack_link) : Op → jack_link
  | Op.tempo t h => (s.tempo t h).1
  | Op.playing p q h => (s.playing p q h).1
  | Op.peers_callback n => (s.peers_callback n).1
  | Op.tempo_callback t => (s.tempo_callback t).1
  | Op.playing_callback p l q h => (s.playing_callback p l q h).1
  | Op.timebase_callback pos n l v => (s.timebase_callback pos n l v).1
  | Op.sync_callback _ _ _ => s
  | Op.worker_run q h => (s.worker_run q h).1

/-- The state after a sequence of operations. -/
def run (s : jack_link) (ops : List Op) : jack_link :=
  ops.foldl step s

end jack_link

/-! ## Observations on positions and effects -/

/-- The elapsed beats that a bar, beat, tick triple stands for:
`(bar - 1) * beats_per_bar + (beat - 1) + tick / ticks_per_beat`. -/
def bbt_beats (r : jack_position_t) : ℚ :=
  ((r.bar - 1 : Int) : ℚ) * r.beats_per_bar + ((r.beat - 1 : Int) : ℚ)
    + (r.tick : ℚ) / r.ticks_per_beat

/-- Whether a call commits a session snapshot to Link. -/
def Effect.is_commit : Effect → Bool
  | Effect.commitAppSessionState _ => true
  | Effect.commitAudioSessionState _ => true
  | _ => false

/-- Whether a call is `jack_transport_start` or `jack_transport_stop`. -/
def Effect.is_transport_command : Effect → Bool
  | Effect.jack_transport_start => true
  | Effect.jack_transport_stop => true
  | _ => false

/-- Whether a snapshot mutation is a `setIsPlaying`. -/
def SessionOp.is_setIsPlaying : SessionOp → Bool
  | SessionOp.setIsPlaying _ _ => true
  | _ => false

/-- Whether a call commits a snapshot on which `setIsPlaying` was called. -/
def Effect.sets_playing : Effect → Bool
  | Effect.commitAppSessionState ops => ops.any SessionOp.is_setIsPlaying
  | Effect.commitAudioSessionState ops => ops.any SessionOp.is_setIsPlaying
  | _ => false

/-! ## Concrete inputs -/

/-- A position at `frame` that carries no bar, beat, tick data. -/
def position_at (frame frame_rate : Nat) : jack_position_t :=
  { frame := frame, frame_rate := frame_rate, valid := false, bar := 0, beat := 0, tick := 0,
    beats_per_bar := 0, beat_type := 0, ticks_per_beat := 0, beats_per_minute := 0 }

/-- A position with valid bar, beat, tick data at the start of bar 1, with the
given tempo and bar length and 960 ticks per beat. -/
def bar_start (beats_per_minute beats_per_bar : ℚ) : jack_position_t :=
  { frame := 0, frame_rate := 48000, valid := true, bar := 1, beat := 1, tick := 0,
    beats_per_bar := beats_per_bar, beat_type := 4, ticks_per_beat := 960,
    beats_per_minute := beats_per_minute }

/-- The constructed engine (client open, 48000 Hz) once one peer is present,
with the given state of the play request flag. -/
def with_peer (playing_req : Bool) : jack_link :=
  { jack_link.ctor true 48000 with m_npeers := 1, m_playing_req := playing_req }

/-! ## Lemmas on the numeric primitives -/

theorem trunc_of_nonneg {x : ℚ} (h : 0 ≤ x) : trunc x = ⌊x⌋ := by
  simp [trunc, h]

theorem trunc_intCast (n : Int) : trunc (n : ℚ) = n := by
  unfold trunc
  split_ifs <;> simp

theorem wrap32_of_range {n : Int} (h1 : -2 ^ 31 ≤ n) (h2 : n < 2 ^ 31) : wrap32 n = n := by
  unfold wrap32
  rw [Int.emod_eq_of_lt (by omega) (by omega)]
  omega

theorem int32_t_intCast (n : Int) (h1 : -2 ^ 31 ≤ n) (h2 : n < 2 ^ 31) :
    int32_t (n : ℚ) = n := by
  rw [int32_t, trunc_intCast, wrap32_of_range h1 h2]

theorem frame_time_nonneg (pos : jack_position_t) : 0 ≤ jack_link.frame_time pos := by
  unfold jack_link.frame_time llround
  have h : (0 : ℚ) ≤ 1000000 * (pos.frame : ℚ) / (pos.frame_rate : ℚ) := by positivity
  rw [if_pos h]
  exact Int.floor_nonneg.mpr (by positivity)

namespace jack_link

open jack_transport_state_t SessionOp Effect

/-! ## The timebase hook -/

/-- The fields the hook writes, in terms of the tempo it stamps. -/
theorem timebase_callback_fields (s : jack_link) (pos : jack_position_t) (new_pos : Int)
    (try_lock : Bool) (tested_req : ℚ) :
    let r := (timebase_callback s pos new_pos try_lock tested_req).2
    let B : ℚ := r.beats_per_minute * frame_time pos / 60000000
    let Q : ℚ := max s.m_quantum 1
    let beat : ℚ := B - ⌊B / Q⌋ * Q
    r.beats_per_bar = Q ∧ r.bar = wrap32 (int32_t ⌊B / Q⌋ + 1) ∧
      r.beat = wrap32 (int32_t beat + 1) ∧
      r.tick = int32_t (r.ticks_per_beat * (beat - ⌊beat⌋)) ∧
      r.ticks_per_beat = (if pos.valid then pos.ticks_per_beat else 960) ∧
      r.beats_per_minute
        = (if 0 < tested_req ∧ try_lock = true then s.m_tempo_req else s.m_tempo) := by
  simp [timebase_callback]

/-- C1 (amended). Whole beats: on a position with frame rate `> 0`, when the
recorded quantum is an integer `q ≥ 1` and the elapsed beats the hook computes
(the tempo it stamps times the frame time in microseconds over 60e6) is a
natural number `k` with `60e6 * k ≤ 2^53` and `k + q ≤ 2^53`, the hook writes
`bar = k div q + 1`, `beat = k mod q + 1` and `tick = 0`, whatever
`ticks_per_beat` is.

The two bounds are those within which the double operations of lines 145-147
are exact: the product `tempo * frame_time = 60e6 * k` and the quotient `k`
are integers below `2^53`, and the double quotient `k / q` cannot round up to
the next integer, which is at least `1 / q` away, while `(k div q + 1) * q`
is at most `2^53`. The first bound also keeps `bar` and `beat` within 32
bits. The proof is in exact arithmetic and uses the first bound only. -/
theorem timebase_callback_whole_beats (s : jack_link) (pos : jack_position_t) (new_pos : Int)
    (try_lock : Bool) (tested_req : ℚ) (q k : Nat) (hq : s.m_quantum = q) (hq1 : 1 ≤ q)
    (hrate : 0 < pos.frame_rate)
    (hk : (timebase_callback s pos new_pos try_lock tested_req).2.beats_per_minute
      * frame_time pos / 60000000 = k)
    (hk53 : 60000000 * k ≤ 2 ^ 53) (hkq : k + q ≤ 2 ^ 53) :
    (timebase_callback s pos new_pos try_lock tested_req).2.bar = (k / q : Nat) + 1 ∧
    (timebase_callback s pos new_pos try_lock tested_req).2.beat = (k % q : Nat) + 1 ∧
    (timebase_callback s pos new_pos try_lock tested_req).2.tick = 0 := by
  have _ := hrate
  have _ := hkq
  have hk31 : k + 1 < 2 ^ 31 := by omega
  have hbar : k / q + 1 < 2 ^ 31 := lt_of_le_of_lt (Nat.succ_le_succ (Nat.div_le_self k q)) hk31
  have hbeat : k % q + 1 < 2 ^ 31 := lt_of_le_of_lt (Nat.succ_le_succ (Nat.mod_le k q)) hk31
  obtain ⟨-, hb, hbt, ht, -, -⟩ := timebase_callback_fields s pos new_pos try_lock tested_req
  have hQ : max s.m_quantum 1 = (q : ℚ) := by
    rw [hq]; exact max_eq_left (by exact_mod_cast hq1)
  rw [hk, hQ] at hb hbt ht
  have hfl : ⌊(k : ℚ) / (q : ℚ)⌋ = ((k / q : Nat) : Int) := Rat.floor_natCast_div_natCast k q
  have hbeat_eq : (k : ℚ) - ((⌊(k : ℚ) / (q : ℚ)⌋ : Int) : ℚ) * (q : ℚ)
      = (((k % q : Nat) : Int) : ℚ) := by
    rw [hfl, Int.cast_natCast, Int.cast_natCast]
    have h2 : (q : ℚ) * ((k / q : Nat) : ℚ) + ((k % q : Nat) : ℚ) = (k : ℚ) := by
      exact_mod_cast Nat.div_add_mod k q
    linear_combination -h2
  rw [hbeat_eq] at hbt ht
  rw [hfl] at hb
  generalize k / q = d at hb hbar ⊢
  generalize k % q = m at hbt ht hbeat ⊢
  have e1 := int32_t_intCast (d : Int) (by omega) (by omega)
  have e2 := int32_t_intCast (m : Int) (by omega) (by omega)
  refine ⟨?_, ?_, ?_⟩
  · rw [hb, e1, wrap32_of_range (by omega) (by omega)]
  · rw [hbt, e2, wrap32_of_range (by omega) (by omega)]
  · rw [ht, Int.floor_intCast, sub_self, mul_zero]
    exact int32_t_intCast 0 (by norm_num) (by norm_num)

/-- C1 (amended), the two scenarios of the specification: tempo 120, quantum 4
at 48000 Hz, no request pending; frame 0 gives bar 1, beat 1, tick 0 and
frame 48000 (elapsed beats 2) gives bar 1, beat 3, tick 0. -/
theorem timebase_callback_whole_beats_witness :
    ((timebase_callback (ctor true 48000) (position_at 0 48000) 0 true 0).2.bar = 1 ∧
      (timebase_callback (ctor true 48000) (position_at 0 48000) 0 true 0).2.beat = 1 ∧
      (timebase_callback (ctor true 48000) (position_at 0 48000) 0 true 0).2.tick = 0) ∧
    ((timebase_callback (ctor true 48000) (position_at 48000 48000) 0 true 0).2.bar = 1 ∧
      (timebase_callback (ctor true 48000) (position_at 48000 48000) 0 true 0).2.beat = 3 ∧
      (timebase_callback (ctor true 48000) (position_at 48000 48000) 0 true 0).2.tick = 0) := by
  have h0 := timebase_callback_whole_beats (ctor true 48000) (position_at 0 48000) 0 true 0 4 0
    (by norm_num [ctor])
    (by norm_num)
    (by norm_num [position_at])
    (by norm_num [timebase_callback, ctor, frame_time, llround, position_at])
    (by norm_num) (by norm_num)
  have h2 := timebase_callback_whole_beats (ctor true 48000) (position_at 48000 48000) 0 true 0
    4 2
    (by norm_num [ctor])
    (by norm_num)
    (by norm_num [position_at])
    (by norm_num [timebase_callback, ctor, frame_time, llround, position_at])
    (by norm_num) (by norm_num)
  exact ⟨by simpa using h0, by simpa using h2⟩

/-- C1 as stated fails. From the constructed engine, `tempo(2147483648)` with
no peers and then the hook (its test reads the pending 2147483648, the lock
is free) at frame 11520000 of a 48000 Hz transport (four minutes): the hook
stamps tempo 2147483648 > 0, the recorded quantum is 4, the elapsed beats are
exactly 8589934592, and `8589934592 div 4 + 1` is 2147483649, which no signed
32-bit `bar` field holds: the bar written is another value. -/
theorem timebase_callback_whole_beats_overflow :
    (tempo (ctor true 48000) 2147483648 0).1.m_quantum = ((4 : Nat) : ℚ) ∧
    0 < (timebase_callback (tempo (ctor true 48000) 2147483648 0).1
      (position_at 11520000 48000) 0 true 2147483648).2.beats_per_minute ∧
    (timebase_callback (tempo (ctor true 48000) 2147483648 0).1
      (position_at 11520000 48000) 0 true 2147483648).2.beats_per_minute
        * frame_time (position_at 11520000 48000) / 60000000 = ((8589934592 : Nat) : ℚ) ∧
    (timebase_callback (tempo (ctor true 48000) 2147483648 0).1
      (position_at 11520000 48000) 0 true 2147483648).2.bar
        ≠ ((8589934592 / 4 : Nat) : Int) + 1 := by
  refine ⟨?_, ?_, ?_, ?_⟩
  · norm_num [tempo, ctor, timebase_reset]
  · norm_num [timebase_callback, tempo, ctor, timebase_reset]
  · norm_num [timebase_callback, tempo, ctor, timebase_reset, frame_time, llround, position_at]
  · norm_num [timebase_callback, tempo, ctor, timebase_reset, frame_time, llround, position_at,
      int32_t, trunc, wrap32]

/-- C2. Round trip: let `r` be the position the hook leaves, `B` the elapsed
beats it computes (the tempo it stamps times the frame time over 60e6) and
`R = bbt_beats r` the beats reconstructed from the written bar, beat, tick,
`beats_per_bar` and `ticks_per_beat`. For a stamped tempo `> 0` and ticks per
beat `> 0`, when none of the three 32-bit conversions overflows (the bar
number, the beat number and the tick are below `2^31`),
`0 ≤ B - R < 1 / ticks_per_beat`. The written `beats_per_bar` is
`max quantum 1` and the written `ticks_per_beat` is the incoming one when the
position carried valid data and 960 otherwise, so the statement covers every
quantum; it asks nothing of the frame rate. -/
theorem timebase_callback_round_trip (s : jack_link) (pos : jack_position_t) (new_pos : Int)
    (try_lock : Bool) (tested_req : ℚ) (r : jack_position_t) (B : ℚ)
    (hr : (timebase_callback s pos new_pos try_lock tested_req).2 = r)
    (hB : B = r.beats_per_minute * frame_time pos / 60000000)
    (htempo : 0 < r.beats_per_minute)
    (htpb : 0 < r.ticks_per_beat)
    (hbar : ⌊B / r.beats_per_bar⌋ + 1 < 2 ^ 31)
    (hbeat : ⌊B - ⌊B / r.beats_per_bar⌋ * r.beats_per_bar⌋ + 1 < 2 ^ 31)
    (htick : ⌊r.ticks_per_beat
      * Int.fract (B - ⌊B / r.beats_per_bar⌋ * r.beats_per_bar)⌋ < 2 ^ 31) :
    0 ≤ B - bbt_beats r ∧ B - bbt_beats r < 1 / r.ticks_per_beat := by
  obtain ⟨hQ, hb, hbt, ht, -, -⟩ := timebase_callback_fields s pos new_pos try_lock tested_req
  rw [← hQ] at hb hbt ht
  rw [hr, ← hB] at hb hbt ht
  have hQ1 : (1 : ℚ) ≤ r.beats_per_bar := by rw [← hr, hQ]; exact le_max_right _ _
  have hQ0 : (0 : ℚ) < r.beats_per_bar := lt_of_lt_of_le one_pos hQ1
  have hft : (0 : ℚ) ≤ (frame_time pos : ℚ) := by exact_mod_cast frame_time_nonneg pos
  have hB0 : 0 ≤ B := by
    rw [hB]
    exact div_nonneg (mul_nonneg htempo.le hft) (by norm_num)
  -- the bar
  have hbar0 : 0 ≤ ⌊B / r.beats_per_bar⌋ := Int.floor_nonneg.mpr (div_nonneg hB0 hQ0.le)
  have ebar : r.bar = ⌊B / r.beats_per_bar⌋ + 1 := by
    rw [hb, int32_t_intCast _ (by omega) (by omega)]
    exact wrap32_of_range (by omega) hbar
  -- the beat within the bar
  have hbeat0 : 0 ≤ B - ⌊B / r.beats_per_bar⌋ * r.beats_per_bar :=
    Int.sub_floor_div_mul_nonneg B hQ0
  obtain ⟨beat, hbeat_def⟩ :
      ∃ beat : ℚ, beat = B - ⌊B / r.beats_per_bar⌋ * r.beats_per_bar := ⟨_, rfl⟩
  rw [← hbeat_def] at hbt ht hbeat0 hbeat htick
  have hfl0 : 0 ≤ ⌊beat⌋ := Int.floor_nonneg.mpr hbeat0
  have ebeat : r.beat = ⌊beat⌋ + 1 := by
    have w : wrap32 ⌊beat⌋ = ⌊beat⌋ := wrap32_of_range (by omega) (by omega)
    rw [hbt, int32_t, trunc_of_nonneg hbeat0, w]
    exact wrap32_of_range (by omega) hbeat
  -- the tick within the beat
  have hfr0 : 0 ≤ beat - ⌊beat⌋ := by
    have := Int.floor_le beat
    linarith
  have ht0 : 0 ≤ r.ticks_per_beat * (beat - ⌊beat⌋) := mul_nonneg htpb.le hfr0
  have etick : r.tick = ⌊r.ticks_per_beat * (beat - ⌊beat⌋)⌋ := by
    rw [Int.fract] at htick
    have h0 : 0 ≤ ⌊r.ticks_per_beat * (beat - ⌊beat⌋)⌋ := Int.floor_nonneg.mpr ht0
    rw [ht, int32_t, trunc_of_nonneg ht0]
    exact wrap32_of_range (by omega) htick
  have hlo := Int.floor_le (r.ticks_per_beat * (beat - ⌊beat⌋))
  have hhi := Int.lt_floor_add_one (r.ticks_per_beat * (beat - ⌊beat⌋))
  rw [← etick] at hlo hhi
  have hR : B - bbt_beats r = (beat - ⌊beat⌋) - (r.tick : ℚ) / r.ticks_per_beat := by
    unfold bbt_beats
    rw [ebar, ebeat, hbeat_def]
    push_cast
    ring
  rw [hR]
  constructor
  · rw [sub_nonneg, div_le_iff₀ htpb]
    linarith
  · rw [sub_lt_iff_lt_add, ← add_div, lt_div_iff₀ htpb]
    linarith

/-- C2 at tempo 120, quantum 4, frame 16000 of a 48000 Hz transport without
bar, beat, tick data (960 ticks per beat are used): the frame time is 333333
microseconds and the elapsed beats are `120 * 333333 / 60000000`, a little
under two thirds of a beat. -/
theorem timebase_callback_round_trip_witness :
    0 ≤ (120 : ℚ) * 333333 / 60000000
        - bbt_beats (timebase_callback (ctor true 48000) (position_at 16000 48000) 0 true 0).2 ∧
    (120 : ℚ) * 333333 / 60000000
        - bbt_beats (timebase_callback (ctor true 48000) (position_at 16000 48000) 0 true 0).2
      < 1 / 960 := by
  have ebpm : (timebase_callback (ctor true 48000)
      (position_at 16000 48000) 0 true 0).2.beats_per_minute = 120 := by
    norm_num [timebase_callback, ctor]
  have ebpb : (timebase_callback (ctor true 48000)
      (position_at 16000 48000) 0 true 0).2.beats_per_bar = 4 := by
    norm_num [timebase_callback, ctor]
  have etpb : (timebase_callback (ctor true 48000)
      (position_at 16000 48000) 0 true 0).2.ticks_per_beat = 960 := by
    norm_num [timebase_callback, position_at]
  have eft : frame_time (position_at 16000 48000) = 333333 := by
    norm_num [frame_time, llround, position_at]
  have h := timebase_callback_round_trip (ctor true 48000) (position_at 16000 48000) 0 true 0
    _ ((120 : ℚ) * 333333 / 60000000) rfl
    (by rw [ebpm, eft]; norm_num)
    (by rw [ebpm]; norm_num)
    (by rw [etpb]; norm_num)
    (by rw [ebpb]; norm_num)
    (by rw [ebpb]; norm_num)
    (by rw [ebpb, etpb]; norm_num [Int.fract])
  rw [etpb] at h
  exact h

/-- C3. Quantum floor: for a recorded quantum `< 1` the hook writes
`beats_per_bar = 1` and the very position it writes for quantum 1 on the
same position and tempo, and `position_beat` on a position without valid
bar, beat, tick data returns what it returns for quantum 1. -/
theorem quantum_floor (s : jack_link) (pos p : jack_position_t) (new_pos : Int)
    (try_lock : Bool) (tested_req : ℚ) (hq : s.m_quantum < 1) :
    (timebase_callback s pos new_pos try_lock tested_req).2.beats_per_bar = 1 ∧
    (timebase_callback s pos new_pos try_lock tested_req).2
      = (timebase_callback { s with m_quantum := 1 } pos new_pos try_lock tested_req).2 ∧
    (p.valid = false → position_beat s p = position_beat { s with m_quantum := 1 } p) := by
  have hmax : max s.m_quantum 1 = 1 := max_eq_right hq.le
  refine ⟨?_, ?_, ?_⟩
  · simp [timebase_callback, hmax]
  · simp [timebase_callback, hmax]
  · intro hv
    simp [position_beat, hv, hmax]

/-- C3 at quantum 0 and at quantum -3, on frame 100000 of a 48000 Hz
transport. -/
theorem quantum_floor_witness :
    ((timebase_callback { ctor true 48000 with m_quantum := 0 }
        (position_at 100000 48000) 0 true 0).2.beats_per_bar = 1 ∧
      (timebase_callback { ctor true 48000 with m_quantum := 0 }
        (position_at 100000 48000) 0 true 0).2
        = (timebase_callback { ctor true 48000 with m_quantum := 1 }
            (position_at 100000 48000) 0 true 0).2) ∧
    position_beat { ctor true 48000 with m_quantum := -3 } (position_at 100000 48000)
      = position_beat { ctor true 48000 with m_quantum := 1 } (position_at 100000 48000) := by
  have h0 := quantum_floor { ctor true 48000 with m_quantum := 0 }
    (position_at 100000 48000) (position_at 100000 48000) 0 true 0 (by norm_num)
  have h3 := quantum_floor { ctor true 48000 with m_quantum := -3 }
    (position_at 100000 48000) (position_at 100000 48000) 0 true 0 (by norm_num)
  exact ⟨⟨h0.1, h0.2.1⟩, h3.2.2 rfl⟩

end jack_link

namespace jack_link

open jack_transport_state_t SessionOp Effect

/-! ## The reconciliation pass -/

/-- C4. Idempotence: with a client and peers present, when the rolling state
of the local transport equals the recorded playing flag and, for a position
with valid bar, beat, tick data, the recorded tempo and quantum are within
0.01 of the tempo and bar length of the position, a pass issues no call at
all (so no commit) and leaves the whole state unchanged. -/
theorem worker_run_idempotent (s : jack_link)
    (query : jack_transport_state_t × jack_position_t) (host_time : Int)
    (hc : s.m_client = true) (hp : 0 < s.m_npeers)
    (hplay : transport_rolling query.1 = s.m_playing)
    (htempo : query.2.valid = true → |s.m_tempo - query.2.beats_per_minute| ≤ 1 / 100)
    (hquantum : query.2.valid = true → |s.m_quantum - query.2.beats_per_bar| ≤ 1 / 100) :
    worker_run s query host_time = (s, []) := by
  have ht : (query.2.valid && decide (|s.m_tempo - query.2.beats_per_minute| > 1 / 100))
      = false := by
    rcases hv : query.2.valid with _ | _
    · simp
    · simpa using htempo hv
  have hq : (query.2.valid && decide (|s.m_quantum - query.2.beats_per_bar| > 1 / 100))
      = false := by
    rcases hv : query.2.valid with _ | _
    · simp
    · simpa using hquantum hv
  unfold worker_run
  obtain ⟨cl, sr, tb, np, tm, treq, qn, p, preq, run⟩ := s
  simp only at hc hp hplay ht hq
  simp only [hplay, Bool.and_not_self, Bool.not_and_self, Bool.or_self, Bool.false_and,
    Bool.false_eq_true, if_false, ht, hq]
  simp [hc, hp]

/-- C4 with one peer, the transport stopped at a bar start with tempo 120.005
and bar length 4 against the recorded 120 and 4. -/
theorem worker_run_idempotent_witness :
    worker_run (with_peer false) (JackTransportStopped, bar_start (24001 / 200) 4) 7
      = (with_peer false, []) :=
  worker_run_idempotent (with_peer false) (JackTransportStopped, bar_start (24001 / 200) 4) 7
    rfl (by norm_num [with_peer]) rfl
    (by intro _; norm_num [with_peer, ctor, bar_start, abs_le])
    (by intro _; norm_num [with_peer, ctor, bar_start])

/-- C5 (amended). Batching: with a client and peers present, a position with
valid bar, beat, tick data, and the local play state, tempo and bar length
all differing from the recorded ones (tempo and quantum by more than 0.01), a
pass makes exactly one call, a commit of one snapshot. That snapshot sets the
tempo to the local tempo (and the recorded tempo becomes it) when the local
tempo is `> 0`; the recorded quantum becomes the local bar length when that is
`> 0`; the snapshot sets the play flag to the local play state (and the
recorded flag becomes it) when no play request was pending. -/
theorem worker_run_batches (s : jack_link)
    (query : jack_transport_state_t × jack_position_t) (host_time : Int)
    (hc : s.m_client = true) (hp : 0 < s.m_npeers)
    (hvalid : query.2.valid = true)
    (hplay : transport_rolling query.1 ≠ s.m_playing)
    (htempo : |s.m_tempo - query.2.beats_per_minute| > 1 / 100)
    (hquantum : |s.m_quantum - query.2.beats_per_bar| > 1 / 100) :
    ∃ ops, (worker_run s query host_time).2 = [commitAppSessionState ops] ∧
      (0 < query.2.beats_per_minute →
        setTempo query.2.beats_per_minute host_time ∈ ops ∧
        (worker_run s query host_time).1.m_tempo = query.2.beats_per_minute) ∧
      (0 < query.2.beats_per_bar →
        (worker_run s query host_time).1.m_quantum = query.2.beats_per_bar) ∧
      (s.m_playing_req = false →
        setIsPlaying (transport_rolling query.1) host_time ∈ ops ∧
        (worker_run s query host_time).1.m_playing = transport_rolling query.1) := by
  have ht : decide (|s.m_tempo - query.2.beats_per_minute| > 1 / 100) = true := by
    simpa using htempo
  have hq : decide (|s.m_quantum - query.2.beats_per_bar| > 1 / 100) = true := by
    simpa using hquantum
  unfold worker_run
  generalize transport_rolling query.1 = pl at *
  obtain ⟨c, sr, tb, np, t, treq, q, p, preq, run⟩ := s
  simp only at hc hp hplay ht hq htempo hquantum ⊢
  subst hc
  by_cases h1 : 0 < query.2.beats_per_minute <;> by_cases h2 : 0 < query.2.beats_per_bar <;>
    cases pl <;> cases p <;> cases preq <;> simp_all

/-- C5 (amended) with one peer and no play request pending, the recorded state
stopped at tempo 120 and quantum 4, the transport rolling at a bar start with
tempo 100 and bar length 3: one commit that sets the tempo, aligns the beat
and sets the play flag, and the state records all three. -/
theorem worker_run_batches_witness :
    ∃ ops, (worker_run (with_peer false) (JackTransportRolling, bar_start 100 3) 7).2
        = [commitAppSessionState ops] ∧
      setTempo 100 7 ∈ ops ∧ setIsPlaying true 7 ∈ ops ∧
      (worker_run (with_peer false) (JackTransportRolling, bar_start 100 3) 7).1.m_tempo = 100 ∧
      (worker_run (with_peer false) (JackTransportRolling, bar_start 100 3) 7).1.m_quantum = 3 ∧
      (worker_run (with_peer false) (JackTransportRolling, bar_start 100 3) 7).1.m_playing
        = true := by
  obtain ⟨ops, h1, h2, h3, h4⟩ :=
    worker_run_batches (with_peer false) (JackTransportRolling, bar_start 100 3) 7
      rfl (by norm_num [with_peer]) rfl (by decide)
      (by norm_num [with_peer, ctor, bar_start]) (by norm_num [with_peer, ctor, bar_start])
  have h2' := h2 (by norm_num [bar_start])
  have h3' := h3 (by norm_num [bar_start])
  have h4' := h4 rfl
  exact ⟨ops, h1, h2'.1, h4'.1, h2'.2, h3', h4'.2⟩

/-- C5 as stated fails. In each of three passes the engine has a client and a
peer, records stopped, tempo 120 and quantum 4, and the transport is rolling
at a position with valid data whose tempo and bar length both differ by more
than 0.01. (1) A play request is pending and the position has tempo 100 and
bar length 3: the one commit only sets the tempo, no `setIsPlaying`, and the
recorded flag stays stopped. (2) The position reports tempo 0: the one commit
carries no `setTempo` and the recorded tempo stays 120. (3) The position
reports bar length 0: the recorded quantum stays 4. -/
theorem worker_run_batch_incomplete :
    ((with_peer true).m_client = true ∧ 0 < (with_peer true).m_npeers ∧
      (bar_start 100 3).valid = true ∧
      transport_rolling JackTransportRolling ≠ (with_peer true).m_playing ∧
      |(with_peer true).m_tempo - (bar_start 100 3).beats_per_minute| > 1 / 100 ∧
      |(with_peer true).m_quantum - (bar_start 100 3).beats_per_bar| > 1 / 100 ∧
      worker_run (with_peer true) (JackTransportRolling, bar_start 100 3) 7
        = ({ with_peer false with m_tempo := 100, m_quantum := 3 },
            [commitAppSessionState [setTempo 100 7]])) ∧
    (|(with_peer false).m_tempo - (bar_start 0 3).beats_per_minute| > 1 / 100 ∧
      worker_run (with_peer false) (JackTransportRolling, bar_start 0 3) 7
        = ({ with_peer true with m_quantum := 3, m_playing := true },
            [commitAppSessionState [forceBeatAtTime (some (-3)) 7 3, setIsPlaying true 7]])) ∧
    (|(with_peer false).m_quantum - (bar_start 100 0).beats_per_bar| > 1 / 100 ∧
      worker_run (with_peer false) (JackTransportRolling, bar_start 100 0) 7
        = ({ with_peer true with m_tempo := 100, m_playing := true },
            [commitAppSessionState
              [setTempo 100 7, forceBeatAtTime (some 0) 7 4, setIsPlaying true 7]])) := by
  refine ⟨⟨rfl, by norm_num [with_peer], rfl, by decide, ?_, ?_, ?_⟩, ⟨?_, ?_⟩, ⟨?_, ?_⟩⟩
  · norm_num [with_peer, ctor, bar_start]
  · norm_num [with_peer, ctor, bar_start]
  · simp [worker_run, with_peer, ctor, bar_start, transport_rolling]
    norm_num
  · norm_num [with_peer, ctor, bar_start]
  · simp [worker_run, with_peer, ctor, bar_start, transport_rolling, position_beat, wrap32]
    norm_num
  · norm_num [with_peer, ctor, bar_start]
  · simp [worker_run, with_peer, ctor, bar_start, transport_rolling, position_beat, wrap32]
    norm_num

/-! ## The play request fence -/

/-- A pass that starts with a play request pending leaves the recorded playing
flag alone and commits no `setIsPlaying`. -/
theorem worker_run_fenced (s : jack_link) (q : jack_transport_state_t × jack_position_t)
    (t : Int) (h : s.m_playing_req = true) :
    (worker_run s q t).1.m_playing = s.m_playing ∧
    (worker_run s q t).2.all (fun e => !e.sets_playing) = true := by
  unfold worker_run
  obtain ⟨cl, sr, tb, np, tm, treq, qn, p, preq, run⟩ := s
  simp only at h
  subst h
  by_cases hcp : cl = true ∧ 0 < np
  · simp only [hcp, and_self, if_true]
    generalize transport_rolling q.1 = pl
    generalize decide (|tm - q.2.beats_per_minute| > 1 / 100) = td
    generalize decide (|qn - q.2.beats_per_bar| > 1 / 100) = qd
    generalize q.2.valid = vl
    cases pl <;> cases p <;> cases vl <;> cases td <;> cases qd <;>
      simp [Effect.sets_playing, SessionOp.is_setIsPlaying]
  · simp [hcp]

/-- A pass never commands the local transport. -/
theorem worker_run_no_transport (s : jack_link)
    (q : jack_transport_state_t × jack_position_t) (t : Int) :
    (worker_run s q t).2.filter Effect.is_transport_command = [] := by
  unfold worker_run
  obtain ⟨cl, sr, tb, np, tm, treq, qn, p, preq, run⟩ := s
  by_cases hcp : cl = true ∧ 0 < np
  · simp only [hcp, and_self, if_true]
    generalize transport_rolling q.1 = pl
    generalize decide (|tm - q.2.beats_per_minute| > 1 / 100) = td
    generalize decide (|qn - q.2.beats_per_bar| > 1 / 100) = qd
    generalize q.2.valid = vl
    cases pl <;> cases p <;> cases preq <;> cases vl <;> cases td <;> cases qd <;>
      simp [Effect.is_transport_command]
  · simp [hcp]

/-- With a client, `transport_reset` issues exactly one start or stop. -/
theorem transport_reset_commands (s : jack_link)
    (q : jack_transport_state_t × jack_position_t) (t : Int) (h : s.m_client = true) :
    ((transport_reset s q t).filter Effect.is_transport_command).length = 1 := by
  unfold transport_reset
  simp only [h, Bool.true_eq_false, if_false]
  split_ifs <;> simp [Effect.is_transport_command]

/-- C6. Feedback fence: from a state with a client, peers present and no play
request pending, let `a` be `playing(v)`, `b` the play state callback with
the same `v` on the state after `a`, and `c` the pass on the state after `b`,
for any answers of the transport queries, any clock readings and any outcome
of the try-lock. The request leaves the state unchanged, the recorded playing
flag is `v` after the callback and after the pass, the three together issue
exactly one transport start or stop, and the pass commits no `setIsPlaying`. -/
theorem feedback_fence (s : jack_link) (v try_lock : Bool)
    (q1 q2 q3 : jack_transport_state_t × jack_position_t) (t1 t2 t3 : Int)
    (a b c : jack_link × List Effect)
    (hc : s.m_client = true) (hp : 0 < s.m_npeers) (hreq : s.m_playing_req = false)
    (ha : a = playing s v q1 t1)
    (hb : b = playing_callback a.1 v try_lock q2 t2)
    (hw : c = worker_run b.1 q3 t3) :
    a.1 = s ∧ b.1.m_playing = v ∧ c.1.m_playing = v ∧
    ((a.2 ++ b.2 ++ c.2).filter Effect.is_transport_command).length = 1 ∧
    c.2.all (fun e => !e.sets_playing) = true := by
  have ea : a = (s, [commitAppSessionState [setIsPlaying v t1]]) := by
    rw [ha]; simp [playing, hp]
  have eb : b = ({ s with m_playing_req := true, m_playing := v },
      transport_reset { s with m_playing_req := true, m_playing := v } q2 t2
        ++ [notify_one]) := by
    rw [hb, ea]; simp [playing_callback, hreq]
  obtain ⟨hw1, hw2⟩ := worker_run_fenced b.1 q3 t3 (by rw [eb])
  have hw3 := worker_run_no_transport b.1 q3 t3
  rw [← hw] at hw1 hw2 hw3
  have hb1 : b.1.m_playing = v := by rw [eb]
  refine ⟨by rw [ea], hb1, by rw [hw1, hb1], ?_, hw2⟩
  rw [List.filter_append, List.filter_append, hw3, ea, eb]
  have := transport_reset_commands { s with m_playing_req := true, m_playing := v } q2 t2 hc
  simp [Effect.is_transport_command, List.filter_append, this]

/-- C6 with one peer, a request to play, and the transport still stopped in
the pass that follows: the calls of the three steps, in order. -/
theorem feedback_fence_witness :
    (playing (with_peer false) true (JackTransportStopped, bar_start 120 4) 1).1
      = with_peer false ∧
    ((playing (with_peer false) true (JackTransportStopped, bar_start 120 4) 1).2
      ++ (playing_callback (with_peer false) true true
            (JackTransportStopped, bar_start 120 4) 2).2
      ++ (worker_run (playing_callback (with_peer false) true true
            (JackTransportStopped, bar_start 120 4) 2).1
            (JackTransportStopped, bar_start 120 4) 3).2).filter
        Effect.is_transport_command = [jack_transport_start] ∧
    (worker_run (playing_callback (with_peer false) true true
        (JackTransportStopped, bar_start 120 4) 2).1
        (JackTransportStopped, bar_start 120 4) 3).1.m_playing = true := by
  have h := feedback_fence (with_peer false) true true
    (JackTransportStopped, bar_start 120 4) (JackTransportStopped, bar_start 120 4)
    (JackTransportStopped, bar_start 120 4) 1 2 3 _ _ _
    rfl (by norm_num [with_peer]) rfl rfl rfl rfl
  have e : (playing (with_peer false) true (JackTransportStopped, bar_start 120 4) 1).1
      = with_peer false := h.1
  refine ⟨e, ?_, ?_⟩
  · rw [List.filter_append, List.filter_append, worker_run_no_transport]
    simp [playing, playing_callback, transport_reset, with_peer, ctor,
      Effect.is_transport_command]
  · have h3 := h.2.2.1
    rw [e] at h3
    exact h3

/-! ## The tempo request -/

/-- C7. For `v > 0` and no peers, let `a` be `tempo(v)` and `b` the hook on
the state after `a`, its test reading the request that `a` stored and the
try-lock succeeding: the position carries `beats_per_minute = v`, the
recorded tempo is `v` and the pending tempo is cleared (0); `tempo(v)` itself
commits nothing and leaves the recorded tempo as it was. -/
theorem tempo_request_reaches_timebase (s : jack_link) (v : ℚ) (host_time : Int)
    (pos : jack_position_t) (new_pos : Int) (a : jack_link × List Effect)
    (b : jack_link × jack_position_t)
    (hv : 0 < v) (hp : s.m_npeers = 0)
    (ha : a = tempo s v host_time)
    (hb : b = timebase_callback a.1 pos new_pos true a.1.m_tempo_req) :
    b.2.beats_per_minute = v ∧ b.1.m_tempo = v ∧ b.1.m_tempo_req = 0 ∧
    a.2.all (fun e => !e.is_commit) = true ∧ a.1.m_tempo = s.m_tempo := by
  subst hb ha
  have h3 : (tempo s v host_time).2.all (fun e => !e.is_commit) = true := by
    simp only [tempo, hp, lt_irrefl, if_false, timebase_reset]
    split_ifs <;> simp [Effect.is_commit]
  refine ⟨?_, ?_, ?_, h3, ?_⟩ <;> simp [timebase_callback, tempo, hp, timebase_reset, hv]

/-- C7, the scenario of the specification: no peers, `tempo(130)`, then the
hook gives `beats_per_minute = 130`. -/
theorem tempo_request_reaches_timebase_witness :
    (timebase_callback (tempo (ctor true 48000) 130 0).1
      (position_at 0 48000) 0 true (tempo (ctor true 48000) 130 0).1.m_tempo_req).2.beats_per_minute
        = 130 ∧
    (timebase_callback (tempo (ctor true 48000) 130 0).1
      (position_at 0 48000) 0 true (tempo (ctor true 48000) 130 0).1.m_tempo_req).1.m_tempo
        = 130 ∧
    (tempo (ctor true 48000) 130 0).1.m_tempo = 120 := by
  have h := tempo_request_reaches_timebase (ctor true 48000) 130 0 (position_at 0 48000) 0 _ _
    (by norm_num) rfl rfl rfl
  exact ⟨h.1, h.2.1, h.2.2.2.2⟩

end jack_link

namespace jack_link

open jack_transport_state_t SessionOp Effect

/-! ## State invariants -/

/-- A pass leaves the recorded tempo alone or sets it to the positive tempo of
a position with valid data. -/
theorem worker_run_tempo (s : jack_link) (q : jack_transport_state_t × jack_position_t)
    (t : Int) :
    (worker_run s q t).1.m_tempo = s.m_tempo ∨
    (q.2.valid = true ∧ 0 < q.2.beats_per_minute ∧
      (worker_run s q t).1.m_tempo = q.2.beats_per_minute) := by
  unfold worker_run
  obtain ⟨cl, sr, tb, np, tm, treq, qn, p, preq, run⟩ := s
  by_cases hcp : cl = true ∧ 0 < np
  · simp only [hcp, and_self, if_true]
    generalize transport_rolling q.1 = pl
    generalize decide (|tm - q.2.beats_per_minute| > 1 / 100) = td
    generalize decide (|qn - q.2.beats_per_bar| > 1 / 100) = qd
    generalize q.2.valid = vl
    by_cases hpos : 0 < q.2.beats_per_minute <;>
      cases pl <;> cases p <;> cases preq <;> cases vl <;> cases td <;> cases qd <;>
      simp [hpos]
  · simp [hcp]

/-- A pass leaves the recorded quantum alone or sets it to the positive bar
length of a position with valid data. -/
theorem worker_run_quantum (s : jack_link) (q : jack_transport_state_t × jack_position_t)
    (t : Int) :
    (worker_run s q t).1.m_quantum = s.m_quantum ∨
    (q.2.valid = true ∧ 0 < q.2.beats_per_bar ∧
      (worker_run s q t).1.m_quantum = q.2.beats_per_bar) := by
  unfold worker_run
  obtain ⟨cl, sr, tb, np, tm, treq, qn, p, preq, run⟩ := s
  by_cases hcp : cl = true ∧ 0 < np
  · simp only [hcp, and_self, if_true]
    generalize transport_rolling q.1 = pl
    generalize decide (|tm - q.2.beats_per_minute| > 1 / 100) = td
    generalize decide (|qn - q.2.beats_per_bar| > 1 / 100) = qd
    generalize q.2.valid = vl
    by_cases hpos : 0 < q.2.beats_per_bar <;>
      cases pl <;> cases p <;> cases preq <;> cases vl <;> cases td <;> cases qd <;>
      simp [hpos]
  · simp [hcp]

/-- Every operation keeps a positive recorded tempo positive, the hook under
the proviso that no other thread stored a request between its test and its
`try_lock` (the value tested is the one copied). -/
theorem step_tempo_uninterrupted (s : jack_link) (op : Op) (h : 0 < s.m_tempo)
    (hop : ∀ pos n l v, op = Op.timebase_callback pos n l v → v = s.m_tempo_req) :
    0 < (step s op).m_tempo := by
  cases op with
  | tempo t ht =>
    simp only [step, tempo, timebase_reset]
    split_ifs <;> exact h
  | playing p q ht =>
    simp only [step, playing]
    split_ifs <;> exact h
  | peers_callback n => exact h
  | tempo_callback t => exact h
  | playing_callback p l q ht =>
    simp only [step, playing_callback]
    split_ifs <;> exact h
  | timebase_callback pos n l v =>
    have hv := hop pos n l v rfl
    subst hv
    simp only [step, timebase_callback]
    split_ifs with hl
    · exact hl.1
    · exact h
  | sync_callback st pos ht => exact h
  | worker_run q ht =>
    rcases worker_run_tempo s q ht with e | ⟨-, hpos, e⟩
    · simp only [step]; rw [e]; exact h
    · simp only [step]; rw [e]; exact hpos

/-- Only a pass changes the recorded quantum, and only to the positive bar
length of a position with valid data. -/
theorem step_quantum (s : jack_link) (op : Op) :
    (step s op).m_quantum = s.m_quantum ∨
    ∃ q h, op = Op.worker_run q h ∧ q.2.valid = true ∧ 0 < q.2.beats_per_bar ∧
      (step s op).m_quantum = q.2.beats_per_bar := by
  cases op with
  | tempo t ht =>
    left
    simp only [step, tempo, timebase_reset]
    split_ifs <;> rfl
  | playing p q ht =>
    left
    simp only [step, playing]
    split_ifs <;> rfl
  | peers_callback n => left; rfl
  | tempo_callback t => left; rfl
  | playing_callback p l q ht =>
    left
    simp only [step, playing_callback]
    split_ifs <;> rfl
  | timebase_callback pos n l v => left; rfl
  | sync_callback st pos ht => left; rfl
  | worker_run q ht =>
    rcases worker_run_quantum s q ht with e | ⟨hv, hpos, e⟩
    · left; exact e
    · right; exact ⟨q, ht, rfl, hv, hpos, e⟩

/-- The recorded quantum is positive after any sequence of operations from a
state where it is. -/
theorem run_quantum_pos (ops : List Op) (s : jack_link) (h : 0 < s.m_quantum) :
    0 < (run s ops).m_quantum := by
  induction ops generalizing s with
  | nil => exact h
  | cons op ops ih =>
    refine ih (step s op) ?_
    rcases step_quantum s op with e | ⟨q, t, -, -, hpos, e⟩
    · rw [e]; exact h
    · rw [e]; exact hpos

/-- C8 (amended). The recorded quantum is `≥ 1` in the constructed state and
stays `≥ 1` after every operation, provided that, when the operation is a
pass, the position it queries either carries no valid bar, beat, tick data or
reports `beats_per_bar ≥ 1`. For every input of every operation it stays
`> 0`, also along any sequence of operations from the constructed state, and
the bar length the hook uses and writes is `≥ 1`. -/
theorem quantum_invariant :
    (∀ client srate, 1 ≤ (ctor client srate).m_quantum) ∧
    (∀ s op, 1 ≤ s.m_quantum →
      (∀ q t, op = Op.worker_run q t → q.2.valid = true → 1 ≤ q.2.beats_per_bar) →
      1 ≤ (step s op).m_quantum) ∧
    (∀ s op, 0 < s.m_quantum → 0 < (step s op).m_quantum) ∧
    (∀ client srate ops, 0 < (run (ctor client srate) ops).m_quantum) ∧
    (∀ s pos new_pos try_lock tested_req,
      1 ≤ (timebase_callback s pos new_pos try_lock tested_req).2.beats_per_bar) := by
  refine ⟨?_, ?_, ?_, ?_, ?_⟩
  · intro client srate
    norm_num [ctor]
  · intro s op h hpos
    rcases step_quantum s op with e | ⟨q, t, hop, hv, -, e⟩
    · rw [e]; exact h
    · rw [e]; exact hpos q t hop hv
  · intro s op h
    rcases step_quantum s op with e | ⟨q, t, -, -, hpos, e⟩
    · rw [e]; exact h
    · rw [e]; exact hpos
  · intro client srate ops
    exact run_quantum_pos ops _ (by norm_num [ctor])
  · intro s pos new_pos try_lock tested_req
    simp [timebase_callback]

/-- C8 (amended) at the constructed state and a pass, one peer present, whose
position reports bar length 3: the recorded quantum becomes 3. -/
theorem quantum_invariant_witness :
    (1 : ℚ) ≤ (step (with_peer false)
      (Op.worker_run (JackTransportStopped, bar_start 120 3) 7)).m_quantum ∧
    (step (with_peer false)
      (Op.worker_run (JackTransportStopped, bar_start 120 3) 7)).m_quantum = 3 := by
  refine ⟨quantum_invariant.2.1 (with_peer false)
    (Op.worker_run (JackTransportStopped, bar_start 120 3) 7)
    (by norm_num [with_peer, ctor]) ?_, ?_⟩
  · intro q t hop _
    cases hop
    norm_num [bar_start]
  · simp [step, worker_run, with_peer, ctor, bar_start, transport_rolling]
    norm_num

/-- C8 as stated fails. From the constructed engine, the peers callback
reports one peer and a pass then queries a stopped transport whose position
carries valid data with `beats_per_bar = 1/2`: the recorded quantum is 1/2. -/
theorem quantum_invariant_broken :
    (run (ctor true 48000)
      [Op.peers_callback 1,
        Op.worker_run (JackTransportStopped, bar_start 120 (1 / 2)) 7]).m_quantum = 1 / 2 ∧
    ¬ (1 ≤ (run (ctor true 48000)
      [Op.peers_callback 1,
        Op.worker_run (JackTransportStopped, bar_start 120 (1 / 2)) 7]).m_quantum) := by
  have e : (run (ctor true 48000)
      [Op.peers_callback 1,
        Op.worker_run (JackTransportStopped, bar_start 120 (1 / 2)) 7]).m_quantum = 1 / 2 := by
    simp [run, step, peers_callback, timebase_reset, worker_run, ctor, bar_start,
      transport_rolling]
    norm_num [abs_div]
  refine ⟨e, ?_⟩
  rw [e]
  norm_num

/-- C9, the defect. The hook tests `m_tempo_req > 0.0` before it tries the
lock and copies `m_tempo_req` after it holds it (lines 133-134). From the
constructed engine without peers: `tempo(130)` stores a request, the hook
tests it (130 > 0), another thread runs `tempo(-5)` (first case) or
`tempo(0)` (second case), and the hook then gets the lock: the recorded tempo
becomes -5, respectively 0, and is not `> 0`. -/
theorem timebase_callback_tempo_race :
    (0 < (ctor true 48000).m_tempo ∧
      0 < (run (ctor true 48000) [Op.tempo 130 0]).m_tempo_req ∧
      (run (ctor true 48000)
        [Op.tempo 130 0, Op.tempo (-5) 0,
          Op.timebase_callback (position_at 0 48000) 0 true
            (run (ctor true 48000) [Op.tempo 130 0]).m_tempo_req]).m_tempo = -5) ∧
    (run (ctor true 48000)
      [Op.tempo 130 0, Op.tempo 0 0,
        Op.timebase_callback (position_at 0 48000) 0 true
          (run (ctor true 48000) [Op.tempo 130 0]).m_tempo_req]).m_tempo = 0 := by
  refine ⟨⟨?_, ?_, ?_⟩, ?_⟩
  · norm_num [ctor]
  · norm_num [run, step, tempo, timebase_reset, ctor]
  · norm_num [run, step, tempo, timebase_reset, timebase_callback, ctor]
  · norm_num [run, step, tempo, timebase_reset, timebase_callback, ctor]

/-! ## The signed beat -/

end jack_link
